import Mathlib

/-!
Verification of the rate-limiting admission-control layer of the kazwab
backend: the custom in-memory request store (`customStore` over
`requestStore`), the periodic sweep, the per-route limiter configurations,
and the allowlist middleware (`skipRateLimit` / `conditionalRateLimit`),
as mounted in `app.js`.

Timestamps are modelled as `Int` milliseconds (`Date.now()` values, with
negative values available to express clock regression); the request map is
modelled as an association list from client keys to counters.
-/

namespace RateLimit

/-- One entry of `requestStore`: the JS object `{ totalHits, resetTime }`.
`totalHits` is the number of charged hits in the current window;
`resetTime` is the window end timestamp in milliseconds. -/
structure Counter where
  totalHits : Nat
  resetTime : Int
deriving DecidableEq, Repr

/-- `requestStore = new Map()` — the shared mutable map from client keys
(IP strings) to counters. All limiter instances share this single map. -/
abbrev Store := List (String × Counter)

/-- The window length hard-coded inside `customStore.incr`:
`windowMs = 15 * 60 * 1000` (15 minutes), used for every key regardless of
which limiter charged the request. -/
def windowMs : Int := 15 * 60 * 1000

/-- `requestStore.get(key)` / `requestStore.has(key)`. -/
def Store.get : Store → String → Option Counter
  | [], _ => none
  | e :: es, k => if e.1 = k then some e.2 else Store.get es k

/-- `requestStore.set(key, c)`, also covering in-place mutation of the
object already stored under `key`: replaces the entry for `key` when
present, inserts it otherwise. -/
def Store.set : Store → String → Counter → Store
  | [], k, c => [(k, c)]
  | e :: es, k, c => if e.1 = k then (k, c) :: es else e :: Store.set es k c

/-- `requestStore.delete(key)`. -/
def Store.erase (s : Store) (k : String) : Store :=
  s.filter (fun e => !decide (e.1 = k))

/-- `customStore.incr(key)` at time `now`: if the key is absent, install a
fresh counter `{totalHits: 1, resetTime: now + windowMs}`; if present and
`now > data.resetTime`, reset it the same way; otherwise bump `totalHits`.
Returns the updated store together with the counter the JS function
returns. -/
def incr (s : Store) (key : String) (now : Int) : Store × Counter :=
  match s.get key with
  | none =>
    (s.set key ⟨1, now + windowMs⟩, ⟨1, now + windowMs⟩)
  | some data =>
    if now > data.resetTime then
      (s.set key ⟨1, now + windowMs⟩, ⟨1, now + windowMs⟩)
    else
      (s.set key ⟨data.totalHits + 1, data.resetTime⟩, ⟨data.totalHits + 1, data.resetTime⟩)

/-- `customStore.decrement(key)`: if a counter exists and its `totalHits`
is positive, decrease `totalHits` by one; otherwise do nothing. -/
def decrement (s : Store) (key : String) : Store :=
  match s.get key with
  | none => s
  | some data =>
    if 0 < data.totalHits then s.set key ⟨data.totalHits - 1, data.resetTime⟩ else s

/-- `customStore.resetKey(key)`: delete the counter entirely. -/
def resetKey (s : Store) (key : String) : Store :=
  s.erase key

/-- The hourly `setInterval` sweep: delete every entry with
`now - data.resetTime > 0`, keep the rest. -/
def sweep (s : Store) (now : Int) : Store :=
  s.filter (fun e => !decide (now - e.2.resetTime > 0))

/-- The configuration passed to `rateLimit({...})` for one limiter
instance: its `windowMs`, its `max`, and its 429 message. -/
structure LimiterConfig where
  windowMs : Int
  max : Int
  message : String
deriving DecidableEq, Repr

/-- `apiLimiter`: 15 minutes, 100 requests. -/
def apiLimiter : LimiterConfig :=
  ⟨15 * 60 * 1000, 100, "Too many requests from this IP, please try again later."⟩

/-- `authLimiter`: 15 minutes, 5 requests. -/
def authLimiter : LimiterConfig :=
  ⟨15 * 60 * 1000, 5, "Too many authentication attempts, please try again later."⟩

/-- `uploadLimiter`: 60 minutes, 10 requests. -/
def uploadLimiter : LimiterConfig :=
  ⟨60 * 60 * 1000, 10, "Too many file uploads, please try again later."⟩

/-- `contactLimiter`: 60 minutes, 3 requests. -/
def contactLimiter : LimiterConfig :=
  ⟨60 * 60 * 1000, 3, "Too many contact form submissions, please try again later."⟩

/-- `newsletterLimiter`: 60 minutes, 5 requests. -/
def newsletterLimiter : LimiterConfig :=
  ⟨60 * 60 * 1000, 5, "Too many newsletter subscription attempts, please try again later."⟩

/-- `searchLimiter`: 5 minutes, 30 requests. -/
def searchLimiter : LimiterConfig :=
  ⟨5 * 60 * 1000, 30, "Too many search requests, please try again later."⟩

/-- `createCustomLimiter(windowMs, max, message)`: builds a limiter
configuration from the given values. The source performs no validation of
`windowMs` or `max`. -/
def createCustomLimiter (windowMs : Int) (max : Int) (message : String) : LimiterConfig :=
  ⟨windowMs, max, message⟩

/-- Modelled from the spec: the `express-rate-limit` wrapper that connects a
limiter configuration to `customStore` is library code not present in the
repository. Per the spec it charges each request through the store and
rejects exactly when the charged count exceeds the limiter's `max`
("the (N+1)-th request from the same key ... is rejected; the N-th is
admitted"). The state update is `customStore.incr` from the source, which
ignores the limiter's own `windowMs`. Returns the updated store and the
admit decision. -/
def handleRequest (cfg : LimiterConfig) (s : Store) (key : String) (now : Int) : Store × Bool :=
  let r := incr s key now
  (r.1, decide ((r.2.totalHits : Int) ≤ cfg.max))

/-- The whitelist inside `skipRateLimit`. -/
def whitelistedIPs : List String := ["127.0.0.1", "::1"]

/-- The `skipRateLimit` middleware: `req.skipRateLimit` is set exactly when
the request IP is in the whitelist. -/
def skipRateLimit (ip : String) : Bool :=
  whitelistedIPs.contains ip

/-- The middleware chain mounted in `app.js`:
`app.use(skipRateLimit); app.use(conditionalRateLimit(limiter))`.
If `req.skipRateLimit` was set, the limiter is bypassed (`next()` with no
store access); otherwise the limiter runs. -/
def conditionalRateLimit (cfg : LimiterConfig) (s : Store) (ip : String) (now : Int) :
    Store × Bool :=
  if skipRateLimit ip then (s, true) else handleRequest cfg s ip now

/-- Run a sequence of requests from one client through the mounted
middleware chain, one timestamp per request; returns the final store and
the list of admit decisions in order. -/
def runRequests (cfg : LimiterConfig) (key : String) : Store → List Int → Store × List Bool
  | s, [] => (s, [])
  | s, t :: ts =>
    let r := conditionalRateLimit cfg s key t
    let rest := runRequests cfg key r.1 ts
    (rest.1, r.2 :: rest.2)

/-- A store is well formed when no client key occurs twice (the `Map`
invariant). -/
abbrev WF (s : Store) : Prop :=
  (s.map Prod.fst).Nodup

theorem get_set_self (s : Store) (k : String) (c : Counter) :
    (s.set k c).get k = some c := by
  induction s with
  | nil => simp [Store.set, Store.get]
  | cons e es ih =>
    by_cases h : e.1 = k
    · simp [Store.set, Store.get, h]
    · simp [Store.set, Store.get, h, ih]

theorem get_set_ne (s : Store) (k k2 : String) (c : Counter) (h : k2 ≠ k) :
    (s.set k c).get k2 = s.get k2 := by
  have hk : ¬ k = k2 := fun hk => h hk.symm
  induction s with
  | nil => simp [Store.set, Store.get, hk]
  | cons e es ih =>
    by_cases he : e.1 = k
    · simp [Store.set, Store.get, he, hk]
    · by_cases he2 : e.1 = k2
      · simp [Store.set, Store.get, he, he2, h]
      · simp [Store.set, Store.get, he, he2, ih]

theorem get_erase_self (s : Store) (k : String) :
    (s.erase k).get k = none := by
  induction s with
  | nil => simp [Store.erase, Store.get]
  | cons e es ih =>
    by_cases h : e.1 = k
    · simpa [Store.erase, List.filter, h] using ih
    · simpa [Store.erase, List.filter, h, Store.get] using ih

theorem get_erase_ne (s : Store) (k k2 : String) (h : k2 ≠ k) :
    (s.erase k).get k2 = s.get k2 := by
  have hk : ¬ k = k2 := fun hh => h hh.symm
  induction s with
  | nil => simp [Store.erase, Store.get]
  | cons e es ih =>
    by_cases he : e.1 = k
    · simpa [Store.erase, List.filter_cons, he, Store.get, hk] using ih
    · by_cases he2 : e.1 = k2
      · simp [Store.erase, List.filter_cons, he, Store.get, he2, h]
      · simpa [Store.erase, List.filter_cons, he, Store.get, he2] using ih

theorem mem_keys_set (s : Store) (k a : String) (c : Counter)
    (ha : a ∈ (s.set k c).map Prod.fst) : a = k ∨ a ∈ s.map Prod.fst := by
  induction s with
  | nil => simpa [Store.set] using ha
  | cons e es ih =>
    by_cases he : e.1 = k
    · simp only [Store.set, if_pos he, List.map_cons, List.mem_cons] at ha
      rcases ha with h | h
      · exact Or.inl h
      · exact Or.inr (by simp [h])
    · simp only [Store.set, if_neg he, List.map_cons, List.mem_cons] at ha
      rcases ha with h | h
      · exact Or.inr (by simp [h])
      · rcases ih h with h2 | h2
        · exact Or.inl h2
        · exact Or.inr (by simp [h2])

theorem WF_set (s : Store) (k : String) (c : Counter) (hs : WF s) :
    WF (s.set k c) := by
  induction s with
  | nil => simp [WF, Store.set]
  | cons e es ih =>
    simp only [WF, List.map_cons, List.nodup_cons] at hs
    by_cases he : e.1 = k
    · simp only [WF, Store.set, if_pos he, List.map_cons, List.nodup_cons]
      exact ⟨he ▸ hs.1, hs.2⟩
    · simp only [WF, Store.set, if_neg he, List.map_cons, List.nodup_cons]
      refine ⟨fun hmem => ?_, ih hs.2⟩
      rcases mem_keys_set es k e.1 c hmem with h | h
      · exact he h
      · exact hs.1 h

theorem WF_incr (s : Store) (key : String) (now : Int) (hs : WF s) :
    WF (incr s key now).1 := by
  unfold incr
  cases s.get key with
  | none => exact WF_set s key _ hs
  | some data =>
    by_cases h : now > data.resetTime
    · simpa [h] using WF_set s key _ hs
    · simpa [h] using WF_set s key _ hs

theorem runRequests_singleton (cfg : LimiterConfig) (key : String)
    (hkey : skipRateLimit key = false) (ts : List Int) :
    ∀ (c : Nat) (R : Int), (∀ t ∈ ts, t ≤ R) →
      runRequests cfg key [(key, ⟨c, R⟩)] ts
        = ([(key, ⟨c + ts.length, R⟩)],
           (List.range ts.length).map
             (fun i => decide (((c + 1 + i : Nat) : Int) ≤ cfg.max))) := by
  induction ts with
  | nil => intro c R _; simp [runRequests]
  | cons t ts ih =>
    intro c R h
    have ht : ¬ t > R := not_lt.mpr (h t (List.mem_cons_self t ts))
    have hstep : conditionalRateLimit cfg [(key, ⟨c, R⟩)] key t
        = ([(key, ⟨c + 1, R⟩)], decide (((c + 1 : Nat) : Int) ≤ cfg.max)) := by
      simp [conditionalRateLimit, hkey, handleRequest, incr, Store.get, Store.set, ht]
    have hrest := ih (c + 1) R (fun x hx => h x (List.mem_cons_of_mem t hx))
    simp only [runRequests]
    rw [hstep]
    simp only []
    rw [hrest]
    refine Prod.ext ?_ ?_
    · simp only [List.length_cons]
      have : c + 1 + ts.length = c + (ts.length + 1) := by omega
      rw [this]
    · simp only [List.length_cons, List.range_succ_eq_map, List.map_cons, List.map_map]
      refine congrArg₂ List.cons ?_ ?_
      · simp
      · refine List.map_congr_left (fun i _ => ?_)
        simp only [Function.comp]
        exact decide_eq_decide.mpr (by omega)

/-- C1, counterexample to the claim as stated: under `uploadLimiter`
(maxRequests N = 10, windowDuration W = 60 min), eleven requests from the
non-allowlisted key "1.2.3.4", all arriving within W of the first (the
last at t = 960000 ms = 16 min), are ALL admitted: the (N+1)-th request
within W of the first is not rejected, because `customStore.incr` resets
the counter after its own hard-coded 15-minute window rather than after
the policy's windowDuration. -/
theorem c1_counterexample :
    uploadLimiter.max = 10
    ∧ uploadLimiter.windowMs = 3600000
    ∧ ((960000 : Int) ≤ 0 + uploadLimiter.windowMs)
    ∧ (runRequests uploadLimiter "1.2.3.4" []
          [0, 0, 0, 0, 0, 0, 0, 0, 0, 0, 960000]).2
        = [true, true, true, true, true, true, true, true, true, true, true] := by
  decide

/-- C1 (amended): the window the store enforces is its own hard-coded
15 minutes, not the policy's windowDuration. For every limiter
configuration with max = N ≥ 1, every non-allowlisted key, and N+1
requests starting from an empty store whose later timestamps all lie
within 15 minutes of the first, the N-th request is admitted and the
(N+1)-th is rejected. -/
theorem c1_fixed_window (cfg : LimiterConfig) (key : String)
    (hkey : skipRateLimit key = false) (t0 : Int) (ts : List Int)
    (hts : ∀ t ∈ ts, t ≤ t0 + windowMs) (N : Nat) (hN : 1 ≤ N)
    (hmax : cfg.max = (N : Int)) (hlen : ts.length = N) :
    (runRequests cfg key [] (t0 :: ts)).2[N - 1]? = some true
    ∧ (runRequests cfg key [] (t0 :: ts)).2[N]? = some false := by
  have hstep0 : conditionalRateLimit cfg [] key t0
      = ([(key, ⟨1, t0 + windowMs⟩)], decide (((1 : Nat) : Int) ≤ cfg.max)) := by
    simp [conditionalRateLimit, hkey, handleRequest, incr, Store.get, Store.set]
  have hall : (runRequests cfg key [] (t0 :: ts)).2
      = (List.range (N + 1)).map (fun j => decide (((j + 1 : Nat) : Int) ≤ cfg.max)) := by
    simp only [runRequests]
    rw [hstep0]
    simp only []
    rw [runRequests_singleton cfg key hkey ts 1 (t0 + windowMs) hts]
    simp only [hlen]
    rw [List.range_succ_eq_map, List.map_cons, List.map_map]
    refine congrArg₂ List.cons rfl ?_
    refine List.map_congr_left (fun i _ => ?_)
    simp only [Function.comp]
    exact decide_eq_decide.mpr (by omega)
  refine ⟨?_, ?_⟩
  · rw [hall, List.getElem?_map, List.getElem?_range (by omega), hmax]
    simp only [Option.map_some']
    simp only [Option.some.injEq, decide_eq_true_eq]
    omega
  · rw [hall, List.getElem?_map, List.getElem?_range (by omega), hmax]
    simp only [Option.map_some']
    simp only [Option.some.injEq, decide_eq_false_iff_not, not_le]
    omega

/-- C1 witness: the auth policy (max 5), six requests within 15 minutes
of the first — the 5th admitted, the 6th rejected. -/
theorem c1_fixed_window_witness :
    skipRateLimit "1.2.3.4" = false
    ∧ (runRequests authLimiter "1.2.3.4" []
          [0, 1000, 2000, 3000, 4000, 5000]).2[4]? = some true
    ∧ (runRequests authLimiter "1.2.3.4" []
          [0, 1000, 2000, 3000, 4000, 5000]).2[5]? = some false := by
  have h := c1_fixed_window authLimiter "1.2.3.4" (by decide) 0
    [1000, 2000, 3000, 4000, 5000] (by decide) 5 (by decide) (by decide) (by decide)
  exact ⟨by decide, h.1, h.2⟩

/-- C2, counterexample to the claim as stated: after one general-API
request and one upload request from the same key at t = 0, the single
shared counter for that key holds totalHits = 2 — the upload-class count
was changed by the general-API charge — and its window end is
0 + 900000 ms (the store's fixed 15 minutes), not windowStart plus the
upload class's configured 60-minute windowDuration. -/
theorem c2_counterexample :
    (handleRequest uploadLimiter
        (handleRequest apiLimiter [] "9.9.9.9" 0).1 "9.9.9.9" 0).1.get "9.9.9.9"
      = some ⟨2, 900000⟩
    ∧ uploadLimiter.windowMs = 3600000
    ∧ ((900000 : Int) = 0 + uploadLimiter.windowMs → False) := by
  decide

/-- C2 (amended): there is at most one live counter per ClientKey, shared
by every policy class: the store is keyed by the client key alone, the
store update performed by a request is identical for every limiter
configuration, and a freshly created counter's windowEnd is
windowStart + the store's fixed 15 minutes regardless of the policy
class. -/
theorem c2_shared_counter (s : Store) (key : String) (now : Int)
    (cfg cfg2 : LimiterConfig) :
    (WF s → WF (handleRequest cfg s key now).1)
    ∧ (handleRequest cfg s key now).1 = (handleRequest cfg2 s key now).1
    ∧ (s.get key = none →
        (handleRequest cfg s key now).1.get key = some ⟨1, now + windowMs⟩) := by
  refine ⟨fun hs => WF_incr s key now hs, rfl, fun hnone => ?_⟩
  simp [handleRequest, incr, hnone, get_set_self]

/-- C2 witness: at a concrete well-formed store, a request under the
general-API class and one under the search class perform the same store
update, preserve well-formedness, and install a 15-minute counter. -/
theorem c2_shared_counter_witness :
    WF [("8.8.8.8", ⟨3, 500⟩)]
    ∧ WF (handleRequest apiLimiter [("8.8.8.8", ⟨3, 500⟩)] "7.7.7.7" 0).1
    ∧ (handleRequest apiLimiter [("8.8.8.8", ⟨3, 500⟩)] "7.7.7.7" 0).1
        = (handleRequest searchLimiter [("8.8.8.8", ⟨3, 500⟩)] "7.7.7.7" 0).1
    ∧ (handleRequest apiLimiter [("8.8.8.8", ⟨3, 500⟩)] "7.7.7.7" 0).1.get "7.7.7.7"
        = some ⟨1, 0 + windowMs⟩ := by
  have h := c2_shared_counter [("8.8.8.8", ⟨3, 500⟩)] "7.7.7.7" 0 apiLimiter searchLimiter
  exact ⟨by decide, h.1 (by decide), h.2.1, h.2.2 (by decide)⟩

/-- C3, counterexample to the claim as stated: a request arriving exactly
at `now = windowEnd` (here 100) does NOT start a new window: the code
compares with strict `now > resetTime`, so the counter is incremented to
6 inside the old window instead of being reset to 1. -/
theorem c3_counterexample :
    incr [("k", ⟨5, 100⟩)] "k" 100 = ([("k", ⟨6, 100⟩)], ⟨6, 100⟩)
    ∧ ((6 : Nat) = 1 → False) := by
  decide

/-- C3 (amended): `incr` installs a fresh counter with count = 1 and
windowEnd = now + the store's fixed 15 minutes exactly when the counter is
absent or now is strictly past windowEnd (`now > resetTime`); a request
arriving exactly at windowEnd still belongs to the old window and is
counted there; once windowEnd is strictly past, a previously-saturated key
is charged as count = 1 and admitted for any limiter with max ≥ 1. -/
theorem c3_reset_strict (cfg : LimiterConfig) (s : Store) (key : String) (now : Int) :
    (s.get key = none →
      incr s key now = (s.set key ⟨1, now + windowMs⟩, ⟨1, now + windowMs⟩))
    ∧ (∀ c, s.get key = some c → c.resetTime < now →
      incr s key now = (s.set key ⟨1, now + windowMs⟩, ⟨1, now + windowMs⟩))
    ∧ (∀ c, s.get key = some c → now ≤ c.resetTime →
      incr s key now = (s.set key ⟨c.totalHits + 1, c.resetTime⟩,
        ⟨c.totalHits + 1, c.resetTime⟩))
    ∧ ((1 : Int) ≤ cfg.max →
      ∀ c, s.get key = some c → c.resetTime < now →
        (handleRequest cfg s key now).2 = true) := by
  refine ⟨fun h => by simp [incr, h],
    fun c hc hlt => by simp [incr, hc, hlt],
    fun c hc hle => by simp [incr, hc, not_lt.mpr hle],
    fun hmax c hc hlt => ?_⟩
  simp only [handleRequest, incr, hc, hlt, if_pos]
  simpa using hmax

/-- C3 witness: a saturated counter whose windowEnd (100) is strictly past
is reset to count 1 with a fresh 15-minute window at now = 101. -/
theorem c3_reset_strict_witness :
    Counter.resetTime ⟨7, 100⟩ < (101 : Int)
    ∧ incr [("k", ⟨7, 100⟩)] "k" 101
        = ([("k", ⟨1, 101 + windowMs⟩)], ⟨1, 101 + windowMs⟩) := by
  have h := (c3_reset_strict apiLimiter [("k", ⟨7, 100⟩)] "k" 101).2.1
    ⟨7, 100⟩ (by decide) (by decide)
  exact ⟨by decide, by rw [h]; decide⟩

/-- C4, counterexample to the claim as stated: a counter whose windowEnd
equals now (both 100) is NOT removed by the sweep — the code deletes only
when `now - resetTime > 0`, i.e. windowEnd strictly before now. -/
theorem c4_counterexample :
    sweep [("k", ⟨1, 100⟩)] 100 = [("k", ⟨1, 100⟩)]
    ∧ (sweep [("k", ⟨1, 100⟩)] 100 = ([] : Store) → False) := by
  decide

/-- C4 (amended): `sweep now` deletes exactly the counters whose windowEnd
is strictly before now (a counter with windowEnd = now survives), and every
surviving entry is kept whole — key, count and windowEnd unchanged. -/
theorem c4_sweep_strict (s : Store) (now : Int) (k : String) (c : Counter) :
    (k, c) ∈ sweep s now ↔ ((k, c) ∈ s ∧ now ≤ c.resetTime) := by
  simp only [sweep, List.mem_filter, Bool.not_eq_eq_eq_not, Bool.not_true,
    decide_eq_false_iff_not, not_lt]
  constructor
  · rintro ⟨hm, hle⟩
    exact ⟨hm, by omega⟩
  · rintro ⟨hm, hle⟩
    exact ⟨hm, by omega⟩

/-- C5: a request whose client key is on the allowlist (the loopback
addresses by default) is admitted regardless of volume, and the admission
check performs no state mutation: the store is returned untouched. -/
theorem c5_allowlist_admit (cfg : LimiterConfig) (s : Store) (ip : String) (now : Int)
    (h : ip ∈ whitelistedIPs) :
    conditionalRateLimit cfg s ip now = (s, true) := by
  have hskip : skipRateLimit ip = true := by
    simp [skipRateLimit, List.contains_iff_exists_mem_beq]
    exact h
  simp [conditionalRateLimit, hskip]

/-- C5 witness: the loopback key "127.0.0.1" with a saturated counter of
999 hits is still admitted and no counter entry is created or modified. -/
theorem c5_allowlist_admit_witness :
    "127.0.0.1" ∈ whitelistedIPs
    ∧ conditionalRateLimit apiLimiter [("127.0.0.1", ⟨999, 100⟩)] "127.0.0.1" 0
        = ([("127.0.0.1", ⟨999, 100⟩)], true) :=
  ⟨by decide, c5_allowlist_admit apiLimiter [("127.0.0.1", ⟨999, 100⟩)] "127.0.0.1" 0 (by decide)⟩

theorem one_le_incr_totalHits (s : Store) (key : String) (now : Int) :
    1 ≤ (incr s key now).2.totalHits := by
  unfold incr
  cases h : s.get key with
  | none => simp
  | some data =>
    by_cases hlt : now > data.resetTime
    · simp [hlt]
    · simp [hlt]

/-- C6, counterexample to the claim as stated: constructing a custom
limiter with maxRequests = 0 raises no configuration error — it returns an
ordinary configuration whose limiter then processes requests (and even
mutates the store), instead of failing at construction time. -/
theorem c6_counterexample :
    createCustomLimiter 60000 0 "m" = ⟨60000, 0, "m"⟩
    ∧ (handleRequest (createCustomLimiter 60000 0 "m") [] "k" 0).2 = false
    ∧ (handleRequest (createCustomLimiter 60000 0 "m") [] "k" 0).1.get "k"
        = some ⟨1, 900000⟩ := by
  decide

/-- C6 (amended): `createCustomLimiter` performs no validation at all: for
every windowMs, max and message — zero and negative values included — it
returns a working configuration carrying exactly those values; a limiter
built with max ≤ 0 silently rejects every charged request rather than
raising an error at construction time. -/
theorem c6_no_validation (w m : Int) (msg : String) :
    createCustomLimiter w m msg = ⟨w, m, msg⟩
    ∧ (m ≤ 0 → ∀ (s : Store) (key : String) (now : Int),
        (handleRequest (createCustomLimiter w m msg) s key now).2 = false) := by
  refine ⟨rfl, fun hm s key now => ?_⟩
  have h1 := one_le_incr_totalHits s key now
  simp only [handleRequest, createCustomLimiter, decide_eq_false_iff_not, not_le]
  omega

/-- C6 witness: a custom limiter built with negative windowMs and negative
max is produced without any error and rejects a request. -/
theorem c6_no_validation_witness :
    (-3 : Int) ≤ 0
    ∧ createCustomLimiter (-60000) (-3) "m" = ⟨-60000, -3, "m"⟩
    ∧ (handleRequest (createCustomLimiter (-60000) (-3) "m") [] "k" 5).2 = false := by
  have h := c6_no_validation (-60000) (-3) "m"
  exact ⟨by decide, h.1, h.2 (by decide) [] "k" 5⟩

/-- C7: `decrement` decreases the count by exactly 1 when it is positive,
leaves the entry untouched when the count is 0, is a no-op when no counter
exists, and a subsequent charge within the same window continues from the
decremented value (the count never becomes negative: it is floored at 0). -/
theorem c7_decrement (s : Store) (key : String) (now : Int) :
    (∀ c, s.get key = some c → 0 < c.totalHits →
      (decrement s key).get key = some ⟨c.totalHits - 1, c.resetTime⟩)
    ∧ (∀ c, s.get key = some c → c.totalHits = 0 → decrement s key = s)
    ∧ (s.get key = none → decrement s key = s)
    ∧ (∀ c, s.get key = some c → 0 < c.totalHits → now ≤ c.resetTime →
      (incr (decrement s key) key now).2 = ⟨c.totalHits, c.resetTime⟩) := by
  refine ⟨fun c hc hpos => ?_, fun c hc h0 => ?_, fun h => ?_, fun c hc hpos hle => ?_⟩
  · simp [decrement, hc, hpos, get_set_self]
  · simp [decrement, hc, h0]
  · simp [decrement, h]
  · have hg : (decrement s key).get key = some ⟨c.totalHits - 1, c.resetTime⟩ := by
      simp [decrement, hc, hpos, get_set_self]
    simp only [incr, hg]
    rw [if_neg (not_lt.mpr hle)]
    simp only []
    congr 1
    omega

/-- C7 witness: a counter at 2 hits is decremented to 1, and the next
charge inside the window brings it back to exactly 2. -/
theorem c7_decrement_witness :
    Store.get [("k", ⟨2, 1000⟩)] "k" = some ⟨2, 1000⟩
    ∧ (decrement [("k", ⟨2, 1000⟩)] "k").get "k" = some ⟨1, 1000⟩
    ∧ (incr (decrement [("k", ⟨2, 1000⟩)] "k") "k" 500).2 = ⟨2, 1000⟩ := by
  have h := c7_decrement [("k", ⟨2, 1000⟩)] "k" 500
  exact ⟨by decide, h.1 ⟨2, 1000⟩ (by decide) (by decide),
    h.2.2.2 ⟨2, 1000⟩ (by decide) (by decide) (by decide)⟩

/-- C8: `resetKey` deletes the counter for the key entirely, and the next
request from that key is treated as the first of a new window: admitted
(for any limiter with max ≥ 1) with a fresh counter of count 1. -/
theorem c8_reset_fresh (cfg : LimiterConfig) (s : Store) (key : String) (now : Int)
    (hmax : (1 : Int) ≤ cfg.max) :
    (resetKey s key).get key = none
    ∧ (handleRequest cfg (resetKey s key) key now).2 = true
    ∧ (handleRequest cfg (resetKey s key) key now).1.get key
        = some ⟨1, now + windowMs⟩ := by
  have hg : (resetKey s key).get key = none := get_erase_self s key
  refine ⟨hg, ?_, ?_⟩
  · simp only [handleRequest, incr, hg]
    simpa using hmax
  · simp [handleRequest, incr, hg, get_set_self]

/-- C8 witness: after 3 admits under the auth policy, `resetKey` deletes
the entry and the next request is admitted as count 1 of a fresh window. -/
theorem c8_reset_fresh_witness :
    (1 : Int) ≤ authLimiter.max
    ∧ (resetKey [("1.2.3.4", ⟨3, 900000⟩)] "1.2.3.4").get "1.2.3.4" = none
    ∧ (handleRequest authLimiter
        (resetKey [("1.2.3.4", ⟨3, 900000⟩)] "1.2.3.4") "1.2.3.4" 5).2 = true
    ∧ (handleRequest authLimiter
        (resetKey [("1.2.3.4", ⟨3, 900000⟩)] "1.2.3.4") "1.2.3.4" 5).1.get "1.2.3.4"
        = some ⟨1, 5 + windowMs⟩ := by
  have h := c8_reset_fresh authLimiter [("1.2.3.4", ⟨3, 900000⟩)] "1.2.3.4" 5 (by decide)
  exact ⟨by decide, h.1, h.2.1, h.2.2⟩

/-- C9: a call whose timestamp has moved backward never resets the count:
whenever now ≤ windowEnd — in particular whenever now has regressed before
the window even started — `incr` continues the current window, adding 1 to
the stored count and preserving windowEnd; only the comparison against
windowEnd (never one against a window start) decides a reset. -/
theorem c9_clock_regression (s : Store) (key : String) (now : Int) (c : Counter)
    (hc : s.get key = some c) (hle : now ≤ c.resetTime) :
    (incr s key now).2 = ⟨c.totalHits + 1, c.resetTime⟩
    ∧ (incr s key now).1.get key = some ⟨c.totalHits + 1, c.resetTime⟩ := by
  constructor
  · simp [incr, hc, not_lt.mpr hle]
  · simp [incr, hc, not_lt.mpr hle, get_set_self]

/-- C9 witness: a counter with windowEnd 1000 (so its window began at
1000 − 900000 = −899000) charged at the regressed time −1000000 — before
the window even began — is incremented to 8, not reset to 1. -/
theorem c9_clock_regression_witness :
    (-1000000 : Int) ≤ Counter.resetTime ⟨7, 1000⟩
    ∧ (incr [("k", ⟨7, 1000⟩)] "k" (-1000000)).2 = ⟨8, 1000⟩ := by
  have h := c9_clock_regression [("k", ⟨7, 1000⟩)] "k" (-1000000) ⟨7, 1000⟩
    (by decide) (by decide)
  exact ⟨by decide, h.1⟩

/-- C10: `decrement key` mutates at most the count of the entry for `key`:
that entry's windowEnd (resetTime) is preserved, and the entry of every
other key is completely unchanged. -/
theorem c10_decrement_frame (s : Store) (key k2 : String) :
    ((decrement s key).get key).map Counter.resetTime
      = (s.get key).map Counter.resetTime
    ∧ (k2 ≠ key → (decrement s key).get k2 = s.get k2) := by
  constructor
  · cases hc : s.get key with
    | none => simp [decrement, hc]
    | some c =>
      by_cases hpos : 0 < c.totalHits
      · simp [decrement, hc, hpos, get_set_self]
      · simp [decrement, hc, hpos]
  · intro hne
    cases hc : s.get key with
    | none => simp [decrement, hc]
    | some c =>
      by_cases hpos : 0 < c.totalHits
      · simp [decrement, hc, hpos, get_set_ne s key k2 _ hne]
      · simp [decrement, hc, hpos]

/-- C10 witness: decrementing "k" keeps its windowEnd 777 and leaves the
entry of the other key "a" untouched. -/
theorem c10_decrement_frame_witness :
    ("a" : String) ≠ "k"
    ∧ ((decrement [("k", ⟨2, 777⟩), ("a", ⟨4, 555⟩)] "k").get "k").map Counter.resetTime
        = some 777
    ∧ (decrement [("k", ⟨2, 777⟩), ("a", ⟨4, 555⟩)] "k").get "a" = some ⟨4, 555⟩ := by
  have h := c10_decrement_frame [("k", ⟨2, 777⟩), ("a", ⟨4, 555⟩)] "k" "a"
  refine ⟨by decide, ?_, ?_⟩
  · rw [h.1]; decide
  · rw [h.2 (by decide)]; decide

end RateLimit
